import Mathlib

/-!
Verification of the DMDataPushMailer export-and-deliver pipeline
(`main.go`): the table-to-spreadsheet exporter (`exportTableToExcel`),
the MIME multipart message assembler and transport (`SendEmail` with
`writeBody` / `writeAttachment`), and the job orchestration (`task`,
`main`), embedded shallowly.

Bytes are modelled as `Nat` (the code only produces values < 256) and
byte strings as `List Nat`.  External collaborators (the SQL driver,
the SMTP server, `crypto/rand`, the cron library) are parameters of the
model: an oracle function or an explicit nondeterminism argument.
-/

/-- ASCII bytes of a Lean string (Go strings are byte slices; every
string the program places in a message is ASCII). -/
def strBytes (s : String) : List Nat :=
  s.data.map Char.toNat

/-- The CR LF line terminator used throughout the message. -/
def crlf : List Nat := [13, 10]

/-- Concatenation of a list of byte strings. -/
def listConcat : List (List Nat) → List Nat
  | [] => []
  | l :: ls => l ++ listConcat ls

/-- Whether `pat` occurs at the head of the second list. -/
def listLeads : List Nat → List Nat → Bool
  | [], _ => true
  | _ :: _, [] => false
  | a :: as', b :: bs' => a == b && listLeads as' bs'

/-- Whether `pat` occurs as a contiguous substring of `l`. -/
def occursIn (pat : List Nat) : List Nat → Bool
  | [] => pat.isEmpty
  | b :: rest => listLeads pat (b :: rest) || occursIn pat rest

/-- Split a byte string at every CR LF pair (the line structure a mail
parser sees). -/
def splitCRLF : List Nat → List (List Nat)
  | [] => [[]]
  | [c] => [[c]]
  | c :: d :: rest =>
      if c = 13 ∧ d = 10 then [] :: splitCRLF rest
      else
        match splitCRLF (d :: rest) with
        | [] => [[c]]
        | l :: ls => (c :: l) :: ls

/-! ## Base64 (Go `encoding/base64`, `StdEncoding` via `base64.NewEncoder`)

`writeAttachment` copies the attachment buffer through
`base64.NewEncoder(base64.StdEncoding, part)` and closes the encoder:
plain standard-alphabet base64 with `=` padding and NO line wrapping
(the stream encoder never inserts line breaks). -/

/-- Byte of the standard base64 alphabet at index `n` (`A-Za-z0-9+/`). -/
def b64Char (n : Nat) : Nat :=
  if n < 26 then 65 + n
  else if n < 52 then 97 + (n - 26)
  else if n < 62 then 48 + (n - 52)
  else if n = 62 then 43
  else 47

/-- Standard base64 of a byte string, `=`-padded, unwrapped. -/
def base64Encode : List Nat → List Nat
  | [] => []
  | [a] => [b64Char (a / 4), b64Char (a % 4 * 16), 61, 61]
  | [a, b] => [b64Char (a / 4), b64Char (a % 4 * 16 + b / 16), b64Char (b % 16 * 4), 61]
  | a :: b :: c :: rest =>
      b64Char (a / 4) :: b64Char (a % 4 * 16 + b / 16) ::
      b64Char (b % 16 * 4 + c / 64) :: b64Char (c % 64) :: base64Encode rest

/-! ## Quoted-printable (Go `mime/quotedprintable.Writer`, non-binary mode)

`writeBody` writes the body through `quotedprintable.NewWriter(part)`
and closes it.  The writer keeps a current line of at most 76 bytes
(soft break `=CRLF`), passes printable bytes and space/tab through,
turns `\r`, `\n` and `\r\n` into hard CRLF line breaks, hex-encodes
(`=XX`, uppercase) every other byte, and on a line break or `Close`
hex-encodes a trailing space/tab. -/

/-- Uppercase hex digit byte. -/
def hexUpperDigit (n : Nat) : Nat := if n < 10 then 48 + n else 55 + n

/-- Space or horizontal tab. -/
def isQPWhitespaceByte (b : Nat) : Bool := b == 9 || b == 32

/-- State of the quoted-printable writer: flushed output, current line
buffer, and the pending-CR flag. -/
structure QPState where
  acc : List Nat
  line : List Nat
  cr : Bool
deriving DecidableEq

/-- `insertCRLF`: flush the current line followed by a hard CRLF. -/
def qpInsertCRLF (s : QPState) : QPState := ⟨s.acc ++ s.line ++ crlf, [], s.cr⟩

/-- `insertSoftLineBreak`: flush the current line followed by `=CRLF`. -/
def qpSoftBreak (s : QPState) : QPState := ⟨s.acc ++ s.line ++ [61] ++ crlf, [], s.cr⟩

/-- `encode`: append `=XX`, soft-breaking first when fewer than three
bytes of the 76-byte line remain. -/
def qpEncodeByte (s : QPState) (b : Nat) : QPState :=
  let s1 := if s.line.length > 72 then qpSoftBreak s else s
  { s1 with line := s1.line ++ [61, hexUpperDigit (b / 16), hexUpperDigit (b % 16)] }

/-- `checkLastByte`: hex-encode a trailing space or tab of the current
line. -/
def qpCheckLastByte (s : QPState) : QPState :=
  match s.line.getLast? with
  | some b =>
      if isQPWhitespaceByte b then qpEncodeByte { s with line := s.line.dropLast } b else s
  | none => s

/-- One input byte of `Writer.Write` (with `Binary = false`). -/
def qpStep (s : QPState) (b : Nat) : QPState :=
  if b = 10 ∨ b = 13 then
    if s.cr = true ∧ b = 10 then { s with cr := false }
    else qpInsertCRLF (qpCheckLastByte { s with cr := b = 13 })
  else if (33 ≤ b ∧ b ≤ 126 ∧ b ≠ 61) ∨ isQPWhitespaceByte b = true then
    let s1 := if s.line.length = 75 then qpSoftBreak s else s
    { s1 with line := s1.line ++ [b], cr := false }
  else qpEncodeByte s b

/-- The whole quoted-printable encoding: feed every byte, then `Close`
(`checkLastByte` and a final flush without a trailing CRLF). -/
def qpEncode (p : List Nat) : List Nat :=
  let s := p.foldl qpStep ⟨[], [], false⟩
  let s1 := qpCheckLastByte s
  s1.acc ++ s1.line

/-! ## Boundary generation (Go `mime/multipart.Writer`)

`multipart.NewWriter` draws 30 bytes from `crypto/rand` and formats
them with `fmt.Sprintf("%x", ...)`: 60 lowercase hex characters.  The
random draw is the explicit parameter of the model. -/

/-- Lowercase hex digit byte. -/
def hexLowerDigit (n : Nat) : Nat := if n < 10 then 48 + n else 87 + n

/-- `fmt.Sprintf("%x", buf)`: two lowercase hex digits per byte. -/
def hexBytes : List Nat → List Nat
  | [] => []
  | b :: bs => hexLowerDigit (b / 16) :: hexLowerDigit (b % 16) :: hexBytes bs

/-- The boundary token produced from the 30 random bytes `r`. -/
def randomBoundary (r : List Nat) : List Nat := hexBytes r

/-! ## Message assembly (`SendEmail`, `writeBody`, `writeAttachment`) -/

/-- One `key: value` header line as written by
`fmt.Sprintf("%s: %s\r\n", key, value)`. -/
def fmtHeaderLine (k v : List Nat) : List Nat := k ++ strBytes ": " ++ v ++ crlf

/-- The five top-level headers `SendEmail` puts in its `headers` map.
Go map iteration order is arbitrary, so every function consuming them
takes a permutation of this list. -/
def topHeaderList (fromAddr toAddr subject : String) (b : List Nat) :
    List (List Nat × List Nat) :=
  [(strBytes "From", strBytes fromAddr),
   (strBytes "To", strBytes toAddr),
   (strBytes "Subject", strBytes subject),
   (strBytes "MIME-Version", strBytes "1.0"),
   (strBytes "Content-Type", strBytes "multipart/mixed; boundary=" ++ b)]

/-- `for key, value := range headers { buf.WriteString(...) }` followed
by one blank line, for the map iteration order `hs`. -/
def topHeaderBlock (hs : List (List Nat × List Nat)) : List Nat :=
  listConcat (hs.map fun kv => fmtHeaderLine kv.1 kv.2) ++ crlf

/-- Dash-boundary line `CreatePart` writes before the first part. -/
def dashBoundaryFirst (b : List Nat) : List Nat := strBytes "--" ++ b ++ crlf

/-- Dash-boundary line `CreatePart` writes before every later part. -/
def dashBoundaryNext (b : List Nat) : List Nat := crlf ++ strBytes "--" ++ b ++ crlf

/-- Close delimiter `multipart.Writer.Close` appends:
`\r\n--boundary--\r\n`. -/
def closeDelimiter (b : List Nat) : List Nat :=
  crlf ++ strBytes "--" ++ b ++ strBytes "--" ++ crlf

/-- Part headers `writeBody` passes to `CreatePart` (which emits header
keys in sorted order). -/
def bodyPartHeaders : List Nat :=
  fmtHeaderLine (strBytes "Content-Transfer-Encoding") (strBytes "quoted-printable") ++
  fmtHeaderLine (strBytes "Content-Type") (strBytes "text/plain; charset=utf-8") ++ crlf

/-- Part headers `writeAttachment` passes to `CreatePart`, in sorted
key order; the filename is interpolated into
`attachment; filename="%s"`. -/
def attPartHeaders (fileName mimeType : List Nat) : List Nat :=
  fmtHeaderLine (strBytes "Content-Disposition")
      (strBytes "attachment; filename=" ++ [34] ++ fileName ++ [34]) ++
  fmtHeaderLine (strBytes "Content-Transfer-Encoding") (strBytes "base64") ++
  fmtHeaderLine (strBytes "Content-Type") mimeType ++ crlf

/-- The MIME type constant `task` uses for every exported table. -/
def xlsxMimeStr : String :=
  "application/vnd.openxmlformats-officedocument.spreadsheetml.sheet"

/-- An email attachment: file name, MIME type, and the contents of its
`bytes.Buffer`. -/
structure Attachment where
  fileName : String
  mimeType : String
  file : List Nat
deriving DecidableEq

/-- Reading a `bytes.Buffer` to EOF (what `io.Copy(encoder, attachment)`
does) yields its contents and leaves the buffer empty. -/
def bufferReadAll (b : List Nat) : List Nat × List Nat := (b, [])

/-- `writeAttachment`: the bytes the part contributes to the message,
and the attachment as it stands afterwards (its buffer consumed by
`io.Copy`). -/
def writeAttachmentPart (b : List Nat) (a : Attachment) : List Nat × Attachment :=
  let r := bufferReadAll a.file
  (dashBoundaryNext b ++ attPartHeaders (strBytes a.fileName) (strBytes a.mimeType) ++
     base64Encode r.1,
   { a with file := r.2 })

/-- The attachment loop of `SendEmail`. -/
def writeAttachmentParts (b : List Nat) : List Attachment → List Nat × List Attachment
  | [] => ([], [])
  | a :: rest =>
      let p := writeAttachmentPart b a
      let q := writeAttachmentParts b rest
      (p.1 ++ q.1, p.2 :: q.2)

/-- The buffer `SendEmail` hands to the SMTP `DATA` writer
(`writerClient.Write(buf.Bytes())`), paired with the attachment buffers
as they stand after building.  `writer.Close()` is deferred and runs
only after this write, so the close delimiter is NOT part of the
transmitted buffer. -/
def sendEmailBuild (hs : List (List Nat × List Nat)) (b body : List Nat)
    (atts : List Attachment) : List Nat × List Attachment :=
  let ap := writeAttachmentParts b atts
  (topHeaderBlock hs ++ dashBoundaryFirst b ++ bodyPartHeaders ++ qpEncode body ++ ap.1,
   ap.2)

/-- The buffer as it stands after the deferred `writer.Close()` has
appended the close delimiter — by then the bytes have already been
transmitted. -/
def sendEmailFinalBuffer (hs : List (List Nat × List Nat)) (b body : List Nat)
    (atts : List Attachment) : List Nat :=
  (sendEmailBuild hs b body atts).1 ++ closeDelimiter b

/-! ## Table export (`exportTableToExcel`)

The SQL driver is modelled by a `QueryResult`: the outcome of
`rows.Columns()`, the per-row outcome of `rows.Scan` for each row the
driver delivers, and the value of `rows.Err()` after iteration.  A
scanned cell is `none` for SQL NULL (`sql.RawBytes` nil) and
`some text` otherwise.  The excelize workbook is modelled as the
single sheet its cells populate: a map from (column, row) coordinates
(1-based) to the stored text. -/

/-- Errors are opaque strings. -/
abbrev Err := String

/-- One scanned row: a cell per column, `none` for SQL NULL. -/
abbrev Row := List (Option String)

/-- The driver-side outcome of `SELECT * FROM table`. -/
structure QueryResult where
  columns : Except Err (List String)
  rows : List (Except Err Row)
  iterErr : Option Err

/-- The single worksheet, as a coordinate map. -/
abbrev Sheet := Nat × Nat → Option String

/-- A fresh workbook sheet has no cells set. -/
def emptySheet : Sheet := fun _ => none

/-- `file.SetCellValue` at 1-based coordinates `(col, row)`. -/
def setCellValue (s : Sheet) (col row : Nat) (v : String) : Sheet :=
  fun p => if p = (col, row) then some v else s p

/-- `if value == nil { "NULL" } else { string(value) }`. -/
def renderCell : Option String → String
  | none => "NULL"
  | some v => v

/-- The header loop: `for i, colName := range columns` writes `colName`
at `(i+1, 1)`. -/
def writeHeaderRow (s : Sheet) (i : Nat) : List String → Sheet
  | [] => s
  | c :: cs => writeHeaderRow (setCellValue s (i + 1) 1 c) (i + 1) cs

/-- The cell loop of one data row: `for colNum, value := range values`
writes the rendered value at `(colNum+1, rowNum)`. -/
def writeRowCells (s : Sheet) (rowNum colNum : Nat) : Row → Sheet
  | [] => s
  | v :: vs => writeRowCells (setCellValue s (colNum + 1) rowNum (renderCell v)) rowNum (colNum + 1) vs

/-- The `rows.Next()` loop: scan each row (a scan error aborts the
export at once), write its cells, advance `rowNum`. -/
def writeDataRows (s : Sheet) (rowNum : Nat) : List (Except Err Row) → Except Err Sheet
  | [] => .ok s
  | .error e :: _ => .error e
  | .ok r :: rest => writeDataRows (writeRowCells s rowNum 0 r) (rowNum + 1) rest

/-- The same loop restricted to successfully scanned rows. -/
def applyRows (s : Sheet) (rowNum : Nat) : List Row → Sheet
  | [] => s
  | r :: rest => applyRows (writeRowCells s rowNum 0 r) (rowNum + 1) rest

/-- `exportTableToExcel` over the driver outcome `q` of its query:
query error, `rows.Columns()` error, any scan error and the final
`rows.Err()` each abort with that error; otherwise the header row is
written at row 1 and the data rows from row 2 on. -/
def exportTableToExcel (q : Except Err QueryResult) : Except Err Sheet :=
  match q with
  | .error e => .error e
  | .ok qr =>
    match qr.columns with
    | .error e => .error e
    | .ok cols =>
      match writeDataRows (writeHeaderRow emptySheet 0 cols) 2 qr.rows with
      | .error e => .error e
      | .ok s2 =>
        match qr.iterErr with
        | some e => .error e
        | none => .ok s2

/-! ## Configuration and orchestration (`task`, `main`) -/

/-- `email` section of the configuration. -/
structure EmailConfig where
  Host : String
  Port : Int
  Username : String
  Password : String
deriving DecidableEq

/-- `db` section of the configuration. -/
structure DBConfig where
  Host : String
  Port : Int
  Username : String
  Password : String
deriving DecidableEq

/-- One `attachment` entry of a post: table to export and the file
name the export is attached under. -/
structure TableAttachmentConfig where
  table : String
  excel : String
deriving DecidableEq

/-- One `post` entry. -/
structure PostConfig where
  From : String
  To : List String
  Subject : String
  Body : String
  Attachment : List TableAttachmentConfig
deriving DecidableEq

/-- The whole configuration. -/
structure Config where
  Email : EmailConfig
  DB : DBConfig
  Post : List PostConfig
  Time : String
deriving DecidableEq

/-- Observable steps of one job run: an attempted table export, and an
attempted SMTP delivery carrying the recipient, subject, body and the
attachments as they stand when the message is built. -/
inductive Event where
  | exportEv (table : String)
  | sendEv (recipient subject body : String) (atts : List Attachment)
deriving DecidableEq

/-- What `SendEmail`'s `writeAttachment` calls leave behind: every
attachment buffer read to EOF by `io.Copy`, hence empty. -/
def drainAttachments (atts : List Attachment) : List Attachment :=
  atts.map fun a => { a with file := [] }

/-- The attachment-building loop of `task` for one post: exports each
configured table through the export oracle `exportFn`; the first
failure aborts (the Go code returns from `task`).  Yields the attempted
exports and either the built attachment list or the error. -/
def runAttachments (exportFn : String → Except Err (List Nat)) :
    List TableAttachmentConfig → List Event × Except Err (List Attachment)
  | [] => ([], .ok [])
  | ac :: rest =>
    match exportFn ac.table with
    | .error e => ([Event.exportEv ac.table], .error e)
    | .ok buf =>
      let r := runAttachments exportFn rest
      (Event.exportEv ac.table :: r.1,
       match r.2 with
       | .error e => .error e
       | .ok atts =>
         .ok ({ fileName := ac.excel, mimeType := xlsxMimeStr, file := buf } :: atts))

/-- The recipient loop of `task` for one post: each iteration calls
`SendEmail`, whose message building drains the shared attachment
buffers before the network outcome `sendNet recipient` is known; a
delivery error aborts the run (the Go code returns from `task`). -/
def runRecipients (sendNet : String → Except Err Unit) (subject body : String) :
    List String → List Attachment → List Event × Bool
  | [], _ => ([], true)
  | r :: rs, atts =>
    match sendNet r with
    | .error _ => ([Event.sendEv r subject body atts], false)
    | .ok _ =>
      let rec' := runRecipients sendNet subject body rs (drainAttachments atts)
      (Event.sendEv r subject body atts :: rec'.1, rec'.2)

/-- One post: build the attachments, then deliver to every recipient. -/
def runPost (exportFn : String → Except Err (List Nat))
    (sendNet : String → Except Err Unit) (p : PostConfig) : List Event × Bool :=
  let ra := runAttachments exportFn p.Attachment
  match ra.2 with
  | .error _ => (ra.1, false)
  | .ok atts =>
    let rr := runRecipients sendNet p.Subject p.Body p.To atts
    (ra.1 ++ rr.1, rr.2)

/-- The post loop of `task`: a failing post aborts the whole run. -/
def runPosts (exportFn : String → Except Err (List Nat))
    (sendNet : String → Except Err Unit) : List PostConfig → List Event × Bool
  | [] => ([], true)
  | p :: ps =>
    let r := runPost exportFn sendNet p
    if r.2 then
      let r2 := runPosts exportFn sendNet ps
      (r.1 ++ r2.1, r2.2)
    else (r.1, false)

/-- `task`: `createDMDB` first rejects empty credential strings (the
port, printed with `%d`, is never empty), then `sql.Open`/`db.Ping`
(the oracle `dbConn`); only then are the posts processed. -/
def taskModel (dbConn : Except Err Unit) (exportFn : String → Except Err (List Nat))
    (sendNet : String → Except Err Unit) (config : Config) : List Event × Bool :=
  if config.DB.Username = "" ∨ config.DB.Password = "" ∨ config.DB.Host = "" ∨
      toString config.DB.Port = "" then ([], false)
  else
    match dbConn with
    | .error _ => ([], false)
    | .ok _ => runPosts exportFn sendNet config.Post

/-- Outcome of `main`: either no job was registered with the cron
scheduler, or the job `task(config)` was registered and started. -/
inductive StartupOutcome where
  | notScheduled
  | scheduled (config : Config)
deriving DecidableEq

/-- `main`: read the configuration (oracle `readCfg`, covering the flag
check and `readConfig`), register the job with `c.AddFunc(config.Time,
...)` (oracle `cronAccepts` for cron-expression parsing), and start the
scheduler.  Nothing else is validated at startup. -/
def mainStartup (readCfg : Except Err Config) (cronAccepts : String → Bool) :
    StartupOutcome :=
  match readCfg with
  | .error _ => .notScheduled
  | .ok cfg => if cronAccepts cfg.Time then .scheduled cfg else .notScheduled

/-! ## Concrete fixtures -/

/-- A boundary the generator can produce: the draw is 30 bytes 0xAB. -/
def cBoundary : List Nat := randomBoundary (List.replicate 30 171)

/-- One possible map iteration order of the top-level headers. -/
def cHeaders : List (List Nat × List Nat) :=
  topHeaderList "alice@example.com" "bob@example.com" "Report" cBoundary

/-- An attachment whose buffer holds three bytes. -/
def cAtt : Attachment := { fileName := "01.xlsx", mimeType := xlsxMimeStr, file := [1, 2, 3] }

/-- The §8 scenario post: one post, two attachments, two recipients. -/
def cPost : PostConfig :=
  { From := "boss@example.com"
    To := ["r1@example.com", "r2@example.com"]
    Subject := "S"
    Body := "B"
    Attachment := [⟨"TEST_01", "01.xlsx"⟩, ⟨"TEST_02", "02.xlsx"⟩] }

/-- The §8 scenario configuration. -/
def cConfig : Config :=
  { Email := ⟨"smtp.example.com", 465, "u", "p"⟩
    DB := ⟨"db.example.com", 5236, "dbu", "dbp"⟩
    Post := [cPost]
    Time := "0 0 0 * * *" }

/-- A configuration whose DB username is missing. -/
def cBadCfg : Config :=
  { Email := ⟨"smtp.example.com", 465, "u", "p"⟩
    DB := ⟨"db.example.com", 5236, "", "dbp"⟩
    Post := [cPost]
    Time := "0 0 0 * * *" }

/-- An export oracle succeeding on the two scenario tables. -/
def cExport : String → Except Err (List Nat) := fun t =>
  if t = "TEST_01" then .ok [65] else if t = "TEST_02" then .ok [66] else .error "no such table"

/-- A 45-byte payload whose base64 encoding is exactly sixty `0`
characters. -/
def c8Payload : List Nat := listConcat (List.replicate 15 [211, 77, 52])

/-! ## Claim theorems -/

/-- Claim C1 (code bug): in the one-post / two-attachment /
two-recipient scenario the run performs exactly 2 table exports and 2
SMTP deliveries with the configured subject and body and both original
filenames — but the second delivery's attachment payloads are empty,
because the first `SendEmail` call's `io.Copy` drained the shared
`bytes.Buffer`s.  The trace below evaluates the job run and exhibits
the empty payloads of the second delivery. -/
theorem c1_scenario_trace :
    taskModel (.ok ()) cExport (fun _ => .ok ()) cConfig =
      ([Event.exportEv "TEST_01", Event.exportEv "TEST_02",
        Event.sendEv "r1@example.com" "S" "B"
          [⟨"01.xlsx", xlsxMimeStr, [65]⟩, ⟨"02.xlsx", xlsxMimeStr, [66]⟩],
        Event.sendEv "r2@example.com" "S" "B"
          [⟨"01.xlsx", xlsxMimeStr, []⟩, ⟨"02.xlsx", xlsxMimeStr, []⟩]], true) := by
  decide

/-- Claim C2 (code bug): `SendEmail` does not leave attachment payloads
intact: building the message reads every attachment's `bytes.Buffer` to
EOF, so after the call the buffer that held `[1, 2, 3]` is empty. -/
theorem c2_attachment_drained :
    (sendEmailBuild cHeaders cBoundary (strBytes "Body") [cAtt]).2 =
      [{ fileName := "01.xlsx", mimeType := xlsxMimeStr, file := [] }] ∧
    cAtt.file = [1, 2, 3] := by
  constructor <;> decide

set_option maxRecDepth 40000 in
/-- Claim C3 (code bug): the buffer handed to the SMTP `DATA` writer
lacks the RFC 2046 close delimiter `\r\n--boundary--\r\n`, because
`buf.Bytes()` is captured before the deferred `writer.Close()` runs;
the delimiter is present only in the final (never transmitted) buffer
state. -/
theorem c3_transmitted_lacks_close_delimiter :
    occursIn (closeDelimiter cBoundary)
        (sendEmailFinalBuffer cHeaders cBoundary (strBytes "Hello") [cAtt]) = true ∧
    occursIn (closeDelimiter cBoundary)
        ((sendEmailBuild cHeaders cBoundary (strBytes "Hello") [cAtt]).1) = false := by
  constructor <;> decide

/-- Claim C7 counterexample: with a valid cron expression but an empty
DB username, `main` still registers and starts the job — missing
credentials are not fatal at startup, refuting "the job is never
scheduled". -/
theorem c7_counterexample :
    cBadCfg.DB.Username = "" ∧
    mainStartup (.ok cBadCfg) (fun _ => true) = .scheduled cBadCfg := by
  constructor <;> rfl

/-- Claim C8 counterexample: the boundary token drawn from thirty zero
bytes (sixty `0` characters) occurs verbatim inside the base64-encoded
body of a 45-byte attachment payload — the builder never checks for
this, refuting "the token never appears as a substring of the encoded
attachment bodies". -/
theorem c8_counterexample :
    occursIn (randomBoundary (List.replicate 30 0)) (base64Encode c8Payload) = true ∧
    c8Payload ≠ [] := by
  constructor <;> decide
/-! ## Exporter lemmas -/

lemma setCellValue_ne (s : Sheet) (col row : Nat) (v : String) (p : Nat × Nat)
    (h : p ≠ (col, row)) : setCellValue s col row v p = s p := by
  simp [setCellValue, h]

lemma writeRowCells_row_ne (vs : Row) (rowNum c r : Nat) (h : r ≠ rowNum) :
    ∀ (s : Sheet) (colNum : Nat), writeRowCells s rowNum colNum vs (c, r) = s (c, r) := by
  induction vs with
  | nil => intro s colNum; rfl
  | cons v vs ih =>
      intro s colNum
      simp only [writeRowCells]
      rw [ih]
      exact setCellValue_ne _ _ _ _ _ (fun heq => h (congrArg Prod.snd heq))

lemma writeRowCells_col_le (vs : Row) (rowNum c r : Nat) :
    ∀ (s : Sheet) (colNum : Nat), c ≤ colNum →
      writeRowCells s rowNum colNum vs (c, r) = s (c, r) := by
  induction vs with
  | nil => intro s colNum _; rfl
  | cons v vs ih =>
      intro s colNum h
      simp only [writeRowCells]
      rw [ih _ _ (Nat.le_succ_of_le h)]
      exact setCellValue_ne _ _ _ _ _
        (fun heq => absurd (congrArg Prod.fst heq) (by simp; omega))

lemma writeRowCells_col_high (vs : Row) (rowNum c r : Nat) :
    ∀ (s : Sheet) (colNum : Nat), colNum + vs.length < c →
      writeRowCells s rowNum colNum vs (c, r) = s (c, r) := by
  induction vs with
  | nil => intro s colNum _; rfl
  | cons v vs ih =>
      intro s colNum h
      simp only [writeRowCells]
      rw [ih _ _ (by simp at h ⊢; omega)]
      exact setCellValue_ne _ _ _ _ _
        (fun heq => absurd (congrArg Prod.fst heq) (by simp at h ⊢; omega))

lemma writeRowCells_hit (vs : Row) (rowNum : Nat) :
    ∀ (s : Sheet) (colNum k : Nat) (h : k < vs.length),
      writeRowCells s rowNum colNum vs (colNum + 1 + k, rowNum) =
        some (renderCell (vs.get ⟨k, h⟩)) := by
  induction vs with
  | nil => intro s colNum k h; exact absurd h (by simp)
  | cons v vs ih =>
      intro s colNum k h
      match k with
      | 0 =>
          simp only [writeRowCells, Nat.add_zero]
          rw [writeRowCells_col_le _ _ _ _ _ _ (Nat.le_refl _)]
          simp [setCellValue]
      | Nat.succ k' =>
          have hpos : colNum + 1 + (k' + 1) = colNum + 1 + 1 + k' := by omega
          simp only [writeRowCells]
          rw [hpos]
          exact ih _ _ _ (by simpa using h)

lemma writeHeaderRow_row_ne (cols : List String) (c r : Nat) (h : r ≠ 1) :
    ∀ (s : Sheet) (i : Nat), writeHeaderRow s i cols (c, r) = s (c, r) := by
  induction cols with
  | nil => intro s i; rfl
  | cons col cols ih =>
      intro s i
      simp only [writeHeaderRow]
      rw [ih]
      exact setCellValue_ne _ _ _ _ _ (fun heq => h (congrArg Prod.snd heq))

lemma writeHeaderRow_col_le (cols : List String) (c r : Nat) :
    ∀ (s : Sheet) (i : Nat), c ≤ i → writeHeaderRow s i cols (c, r) = s (c, r) := by
  induction cols with
  | nil => intro s i _; rfl
  | cons col cols ih =>
      intro s i h
      simp only [writeHeaderRow]
      rw [ih _ _ (Nat.le_succ_of_le h)]
      exact setCellValue_ne _ _ _ _ _
        (fun heq => absurd (congrArg Prod.fst heq) (by simp; omega))

lemma writeHeaderRow_col_high (cols : List String) (c r : Nat) :
    ∀ (s : Sheet) (i : Nat), i + cols.length < c →
      writeHeaderRow s i cols (c, r) = s (c, r) := by
  induction cols with
  | nil => intro s i _; rfl
  | cons col cols ih =>
      intro s i h
      simp only [writeHeaderRow]
      rw [ih _ _ (by simp at h ⊢; omega)]
      exact setCellValue_ne _ _ _ _ _
        (fun heq => absurd (congrArg Prod.fst heq) (by simp at h ⊢; omega))

lemma writeHeaderRow_hit (cols : List String) :
    ∀ (s : Sheet) (i k : Nat) (h : k < cols.length),
      writeHeaderRow s i cols (i + 1 + k, 1) = some (cols.get ⟨k, h⟩) := by
  induction cols with
  | nil => intro s i k h; exact absurd h (by simp)
  | cons col cols ih =>
      intro s i k h
      match k with
      | 0 =>
          simp only [writeHeaderRow, Nat.add_zero]
          rw [writeHeaderRow_col_le _ _ _ _ _ (Nat.le_refl _)]
          simp [setCellValue]
      | Nat.succ k' =>
          have hpos : i + 1 + (k' + 1) = i + 1 + 1 + k' := by omega
          simp only [writeHeaderRow]
          rw [hpos]
          exact ih _ _ _ (by simpa using h)

lemma writeDataRows_ok (rows : List Row) :
    ∀ (s : Sheet) (rowNum : Nat),
      writeDataRows s rowNum (rows.map Except.ok) = .ok (applyRows s rowNum rows) := by
  induction rows with
  | nil => intro s rowNum; rfl
  | cons r rows ih => intro s rowNum; simp only [List.map, writeDataRows, applyRows]; exact ih _ _

lemma writeDataRows_firstError (pre : List Row) (e : Err) (rest : List (Except Err Row)) :
    ∀ (s : Sheet) (rowNum : Nat),
      writeDataRows s rowNum (pre.map Except.ok ++ .error e :: rest) = .error e := by
  induction pre with
  | nil => intro s rowNum; rfl
  | cons r pre ih =>
      intro s rowNum
      simp only [List.map, List.cons_append, writeDataRows]
      exact ih _ _

lemma applyRows_row_lt (rows : List Row) (c r : Nat) :
    ∀ (s : Sheet) (rowNum : Nat), r < rowNum → applyRows s rowNum rows (c, r) = s (c, r) := by
  induction rows with
  | nil => intro s rowNum _; rfl
  | cons row rows ih =>
      intro s rowNum h
      simp only [applyRows]
      rw [ih _ _ (by omega)]
      exact writeRowCells_row_ne _ _ _ _ (by omega) _ _

lemma applyRows_row_ge (rows : List Row) (c r : Nat) :
    ∀ (s : Sheet) (rowNum : Nat), rowNum + rows.length ≤ r →
      applyRows s rowNum rows (c, r) = s (c, r) := by
  induction rows with
  | nil => intro s rowNum _; rfl
  | cons row rows ih =>
      intro s rowNum h
      simp only [applyRows]
      rw [ih _ _ (by simp at h ⊢; omega)]
      exact writeRowCells_row_ne _ _ _ _ (by simp at h; omega) _ _

lemma applyRows_hit (rows : List Row) :
    ∀ (s : Sheet) (rowNum k : Nat) (h : k < rows.length) (c : Nat)
      (hc : c < (rows.get ⟨k, h⟩).length),
      applyRows s rowNum rows (c + 1, rowNum + k) =
        some (renderCell ((rows.get ⟨k, h⟩).get ⟨c, hc⟩)) := by
  induction rows with
  | nil => intro s rowNum k h; exact absurd h (by simp)
  | cons row rows ih =>
      intro s rowNum k h c hc
      match k with
      | 0 =>
          simp only [applyRows, Nat.add_zero]
          rw [applyRows_row_lt _ _ _ _ _ (by omega)]
          have hpos2 : c + 1 = 0 + 1 + c := by omega
          rw [hpos2]
          exact writeRowCells_hit row rowNum s 0 c hc
      | Nat.succ k' =>
          have hpos : rowNum + (k' + 1) = rowNum + 1 + k' := by omega
          simp only [applyRows]
          rw [hpos]
          exact ih _ _ _ (by simpa using h) _ _

lemma applyRows_hit_row_out (rows : List Row) :
    ∀ (s : Sheet) (rowNum k : Nat) (h : k < rows.length) (c : Nat),
      (c = 0 ∨ (rows.get ⟨k, h⟩).length < c) →
      applyRows s rowNum rows (c, rowNum + k) = s (c, rowNum + k) := by
  induction rows with
  | nil => intro s rowNum k h; exact absurd h (by simp)
  | cons row rows ih =>
      intro s rowNum k h c hc
      match k with
      | 0 =>
          simp only [applyRows, Nat.add_zero]
          rw [applyRows_row_lt _ _ _ _ _ (by omega)]
          rcases hc with hc | hc
          · subst hc; exact writeRowCells_col_le _ _ _ _ _ _ (Nat.zero_le _)
          · exact writeRowCells_col_high _ _ _ _ _ _ (by simpa using hc)
      | Nat.succ k' =>
          have hpos : rowNum + (k' + 1) = rowNum + 1 + k' := by omega
          simp only [applyRows]
          rw [hpos]
          rw [ih _ _ _ (by simpa using h) _ (by simpa using hc)]
          exact writeRowCells_row_ne _ _ _ _ (by omega) _ _

/-- Claim C4: for every successfully exported relation, row 1 holds the
column names in source order (nothing else in row 1), input row N
(0-based `k`) occupies output row `k+2` with exactly one cell per
column and nothing outside columns `1..cols.length`, NULL cells render
as the literal `"NULL"`, and no output row exists beyond
`rows.length + 1`. -/
theorem c4_export_layout (qr : QueryResult) (cols : List String) (rows : List Row)
    (hc : qr.columns = .ok cols)
    (hr : qr.rows = rows.map Except.ok)
    (hi : qr.iterErr = none)
    (hlen : ∀ r ∈ rows, r.length = cols.length) :
    ∃ sheet, exportTableToExcel (.ok qr) = .ok sheet ∧
      renderCell none = "NULL" ∧
      (∀ k, (h : k < cols.length) → sheet (k + 1, 1) = some (cols.get ⟨k, h⟩)) ∧
      (∀ c, c = 0 ∨ cols.length < c → sheet (c, 1) = none) ∧
      (∀ k, (h : k < rows.length) → ∀ c, c < cols.length →
          sheet (c + 1, k + 2) = some (renderCell ((rows.get ⟨k, h⟩).getD c none))) ∧
      (∀ k, k < rows.length → ∀ c, c = 0 ∨ cols.length < c → sheet (c, k + 2) = none) ∧
      (∀ c r, rows.length + 2 ≤ r → sheet (c, r) = none) := by
  refine ⟨applyRows (writeHeaderRow emptySheet 0 cols) 2 rows, ?_, rfl, ?_, ?_, ?_, ?_, ?_⟩
  · simp only [exportTableToExcel, hc, hr, hi, writeDataRows_ok]
  · intro k h
    rw [applyRows_row_lt _ _ _ _ _ (by omega)]
    have hpos : k + 1 = 0 + 1 + k := by omega
    rw [hpos]
    exact writeHeaderRow_hit cols _ 0 k h
  · intro c hc2
    rcases hc2 with hc2 | hc2
    · subst hc2
      rw [applyRows_row_lt _ _ _ _ _ (by omega),
        writeHeaderRow_col_le _ _ _ _ _ (Nat.zero_le _)]
      rfl
    · rw [applyRows_row_lt _ _ _ _ _ (by omega),
        writeHeaderRow_col_high _ _ _ _ _ (by omega)]
      rfl
  · intro k h c hcc
    have hrowlen : (rows.get ⟨k, h⟩).length = cols.length := hlen _ (rows.get_mem _ _)
    have hcc2 : c < (rows.get ⟨k, h⟩).length := by omega
    have hpos : k + 2 = 2 + k := by omega
    rw [hpos, applyRows_hit rows _ 2 k h c hcc2, List.getD_eq_get _ _ hcc2]
  · intro k h c hcout
    have hrowlen : (rows.get ⟨k, h⟩).length = cols.length := hlen _ (rows.get_mem _ _)
    have hpos : k + 2 = 2 + k := by omega
    rw [hpos, applyRows_hit_row_out rows _ 2 k h c (by omega)]
    rw [writeHeaderRow_row_ne _ _ _ (by omega)]
    rfl
  · intro c r hge
    rw [applyRows_row_ge _ _ _ _ _ (by omega)]
    rw [writeHeaderRow_row_ne _ _ _ (by omega)]
    rfl

/-- Claim C4 witness: a two-column, one-row table with a NULL in the
second column. -/
theorem c4_export_layout_witness :
    ∃ sheet,
      exportTableToExcel (.ok ⟨.ok ["A", "B"], [.ok [some "x", none]], none⟩) = .ok sheet ∧
      renderCell none = "NULL" ∧
      (∀ k, (h : k < (["A", "B"] : List String).length) →
          sheet (k + 1, 1) = some ((["A", "B"] : List String).get ⟨k, h⟩)) ∧
      (∀ c, c = 0 ∨ (["A", "B"] : List String).length < c → sheet (c, 1) = none) ∧
      (∀ k, (h : k < ([[some "x", none]] : List Row).length) →
          ∀ c, c < (["A", "B"] : List String).length →
          sheet (c + 1, k + 2) =
            some (renderCell ((([[some "x", none]] : List Row).get ⟨k, h⟩).getD c none))) ∧
      (∀ k, k < ([[some "x", none]] : List Row).length →
          ∀ c, c = 0 ∨ (["A", "B"] : List String).length < c → sheet (c, k + 2) = none) ∧
      (∀ c r, ([[some "x", none]] : List Row).length + 2 ≤ r → sheet (c, r) = none) :=
  c4_export_layout ⟨.ok ["A", "B"], [.ok [some "x", none]], none⟩ ["A", "B"]
    [[some "x", none]] rfl rfl rfl (by decide)

/-- Claim C5: every error path of `exportTableToExcel` — a failing
query, a failing `rows.Columns()`, or the first failing `rows.Scan` —
returns exactly that error and no document. -/
theorem c5_error_paths (q : Except Err QueryResult) :
    (∀ e, q = .error e → exportTableToExcel q = .error e) ∧
    (∀ qr e, q = .ok qr → qr.columns = .error e → exportTableToExcel q = .error e) ∧
    (∀ qr cols (pre : List Row) e rest, q = .ok qr → qr.columns = .ok cols →
        qr.rows = pre.map Except.ok ++ .error e :: rest →
        exportTableToExcel q = .error e) := by
  refine ⟨?_, ?_, ?_⟩
  · intro e h; subst h; rfl
  · intro qr e hq hcols; subst hq; simp [exportTableToExcel, hcols]
  · intro qr cols pre e rest hq hcols hrows
    subst hq
    simp [exportTableToExcel, hcols, hrows, writeDataRows_firstError]

/-- Claim C5 witness: the three error paths at concrete inputs. -/
theorem c5_error_paths_witness :
    exportTableToExcel (.error "query failed") = .error "query failed" ∧
    exportTableToExcel (.ok ⟨.error "no columns", [], none⟩) = .error "no columns" ∧
    exportTableToExcel (.ok ⟨.ok ["A"], [.ok [some "x"], .error "scan failed"], none⟩) =
      .error "scan failed" :=
  ⟨(c5_error_paths (.error "query failed")).1 "query failed" rfl,
   (c5_error_paths (.ok ⟨.error "no columns", [], none⟩)).2.1 _ "no columns" rfl rfl,
   (c5_error_paths (.ok ⟨.ok ["A"], [.ok [some "x"], .error "scan failed"], none⟩)).2.2
     _ ["A"] [[some "x"]] "scan failed" [] rfl rfl rfl⟩

/-- Claim C9: a relation with zero data rows exports successfully to a
header-only sheet: row 1 holds the column names and every row from 2 on
is empty. -/
theorem c9_header_only (qr : QueryResult) (cols : List String)
    (hc : qr.columns = .ok cols) (hr : qr.rows = []) (hi : qr.iterErr = none) :
    ∃ sheet, exportTableToExcel (.ok qr) = .ok sheet ∧
      (∀ k, (h : k < cols.length) → sheet (k + 1, 1) = some (cols.get ⟨k, h⟩)) ∧
      (∀ c, c = 0 ∨ cols.length < c → sheet (c, 1) = none) ∧
      (∀ c r, 2 ≤ r → sheet (c, r) = none) := by
  refine ⟨writeHeaderRow emptySheet 0 cols, ?_, ?_, ?_, ?_⟩
  · simp only [exportTableToExcel, hc, hr, hi, writeDataRows]
  · intro k h
    have hpos : k + 1 = 0 + 1 + k := by omega
    rw [hpos]
    exact writeHeaderRow_hit cols _ 0 k h
  · intro c hc2
    rcases hc2 with hc2 | hc2
    · subst hc2; rw [writeHeaderRow_col_le _ _ _ _ _ (Nat.zero_le _)]; rfl
    · rw [writeHeaderRow_col_high _ _ _ _ _ (by omega)]; rfl
  · intro c r hge
    rw [writeHeaderRow_row_ne _ _ _ (by omega)]
    rfl

/-- Claim C9 witness: a two-column relation with no rows. -/
theorem c9_header_only_witness :
    ∃ sheet, exportTableToExcel (.ok ⟨.ok ["A", "B"], [], none⟩) = .ok sheet ∧
      (∀ k, (h : k < (["A", "B"] : List String).length) →
          sheet (k + 1, 1) = some ((["A", "B"] : List String).get ⟨k, h⟩)) ∧
      (∀ c, c = 0 ∨ (["A", "B"] : List String).length < c → sheet (c, 1) = none) ∧
      (∀ c r, 2 ≤ r → sheet (c, r) = none) :=
  c9_header_only ⟨.ok ["A", "B"], [], none⟩ ["A", "B"] rfl rfl rfl

/-! ## Orchestration lemmas -/

lemma runPosts_append_ok (exportFn : String → Except Err (List Nat))
    (sendNet : String → Except Err Unit) (good : List PostConfig) :
    ∀ (gev : List Event), runPosts exportFn sendNet good = (gev, true) →
      ∀ (xs : List PostConfig),
        runPosts exportFn sendNet (good ++ xs) =
          (gev ++ (runPosts exportFn sendNet xs).1, (runPosts exportFn sendNet xs).2) := by
  induction good with
  | nil =>
      intro gev h xs
      simp only [runPosts, Prod.mk.injEq] at h
      rw [← h.1]
      rfl
  | cons p good' ih =>
      intro gev h xs
      by_cases hp : (runPost exportFn sendNet p).2 = true
      · simp only [runPosts, hp, if_true, Prod.mk.injEq] at h
        obtain ⟨h1, h2⟩ := h
        have hgood' : runPosts exportFn sendNet good' =
            ((runPosts exportFn sendNet good').1, true) := by rw [← h2]
        simp only [List.cons_append, runPosts, hp, if_true, List.append_eq]
        rw [ih _ hgood' xs, ← h1]
        simp [List.append_assoc]
      · simp only [runPosts, hp, if_false, Prod.mk.injEq, Bool.false_eq_true] at h
        exact absurd h.2 (by simp)

lemma runAttachments_fail (exportFn : String → Except Err (List Nat))
    (pre : List TableAttachmentConfig) (ac : TableAttachmentConfig)
    (rest : List TableAttachmentConfig) (e : Err)
    (hpre : ∀ b ∈ pre, ∃ buf, exportFn b.table = .ok buf)
    (hfail : exportFn ac.table = .error e) :
    runAttachments exportFn (pre ++ ac :: rest) =
      ((pre.map fun b => Event.exportEv b.table) ++ [Event.exportEv ac.table], .error e) := by
  induction pre with
  | nil => simp only [List.nil_append, runAttachments, hfail, List.map_nil]
  | cons b pre' ih =>
      obtain ⟨buf, hb⟩ := hpre b (by simp)
      have ih2 := ih (fun x hx => hpre x (by simp [hx]))
      simp only [List.cons_append, runAttachments, hb, List.append_eq, ih2, List.map_cons]

/-- Claim C6: if, after some fully successful posts, a post's table
exports fail at attachment `ac` (all earlier attachments of the post
succeeding), the run's trace ends right there: the failing post
contributes only its attempted exports — no delivery event — and the
posts after it contribute nothing at all. -/
theorem c6_failfast (exportFn : String → Except Err (List Nat))
    (sendNet : String → Except Err Unit) (good : List PostConfig) (gev : List Event)
    (p : PostConfig) (later : List PostConfig) (pre : List TableAttachmentConfig)
    (ac : TableAttachmentConfig) (rest : List TableAttachmentConfig) (e : Err)
    (hgood : runPosts exportFn sendNet good = (gev, true))
    (hatt : p.Attachment = pre ++ ac :: rest)
    (hpre : ∀ b ∈ pre, ∃ buf, exportFn b.table = .ok buf)
    (hfail : exportFn ac.table = .error e) :
    runPosts exportFn sendNet (good ++ p :: later) =
      (gev ++ ((pre.map fun b => Event.exportEv b.table) ++ [Event.exportEv ac.table]),
        false) := by
  have hatts := runAttachments_fail exportFn pre ac rest e hpre hfail
  have hpost : runPost exportFn sendNet p =
      ((pre.map fun b => Event.exportEv b.table) ++ [Event.exportEv ac.table], false) := by
    simp only [runPost, hatt, hatts]
  rw [runPosts_append_ok exportFn sendNet good gev hgood (p :: later)]
  simp [runPosts, hpost]

/-- Claim C6 witness: the second of three configured tables fails; the
trace holds the two attempted exports and nothing else. -/
theorem c6_failfast_witness :
    runPosts cExport (fun _ => .ok ())
        [{ From := "boss@example.com", To := ["r1@example.com"], Subject := "S", Body := "B",
           Attachment := [⟨"TEST_01", "01.xlsx"⟩, ⟨"BAD", "02.xlsx"⟩,
             ⟨"TEST_02", "03.xlsx"⟩] }, cPost] =
      (([] : List Event) ++
        ((([⟨"TEST_01", "01.xlsx"⟩] : List TableAttachmentConfig).map
            fun b => Event.exportEv b.table) ++ [Event.exportEv "BAD"]), false) :=
  c6_failfast cExport (fun _ => .ok ()) [] []
    { From := "boss@example.com", To := ["r1@example.com"], Subject := "S", Body := "B",
      Attachment := [⟨"TEST_01", "01.xlsx"⟩, ⟨"BAD", "02.xlsx"⟩, ⟨"TEST_02", "03.xlsx"⟩] }
    [cPost] [⟨"TEST_01", "01.xlsx"⟩] ⟨"BAD", "02.xlsx"⟩ [⟨"TEST_02", "03.xlsx"⟩]
    "no such table" rfl rfl
    (by intro b hb; simp at hb; subst hb; exact ⟨[65], rfl⟩) rfl

/-- Claim C7 (amended): a malformed schedule expression is fatal at
startup (no job is registered); missing database credentials are NOT
checked at startup — the job is scheduled anyway and each triggered run
returns at `createDMDB`, performing no export and no delivery. -/
theorem c7_startup_behavior (readCfg : Except Err Config) (cronAccepts : String → Bool)
    (cfg : Config) (hcfg : readCfg = .ok cfg) :
    (cronAccepts cfg.Time = false → mainStartup readCfg cronAccepts = .notScheduled) ∧
    ((cfg.DB.Username = "" ∨ cfg.DB.Password = "" ∨ cfg.DB.Host = "") →
      ∀ dbConn exportFn sendNet, taskModel dbConn exportFn sendNet cfg = ([], false)) := by
  subst hcfg
  constructor
  · intro h
    simp [mainStartup, h]
  · intro h dbConn exportFn sendNet
    simp only [taskModel]
    rw [if_pos]
    rcases h with h | h | h
    · exact Or.inl h
    · exact Or.inr (Or.inl h)
    · exact Or.inr (Or.inr (Or.inl h))

/-- Claim C7 amended-theorem witness at the concrete missing-username
configuration. -/
theorem c7_startup_behavior_witness :
    ((fun _ => false : String → Bool) cBadCfg.Time = false →
        mainStartup (.ok cBadCfg) (fun _ => false : String → Bool) = .notScheduled) ∧
    ((cBadCfg.DB.Username = "" ∨ cBadCfg.DB.Password = "" ∨ cBadCfg.DB.Host = "") →
      ∀ dbConn exportFn sendNet, taskModel dbConn exportFn sendNet cBadCfg = ([], false)) :=
  c7_startup_behavior (.ok cBadCfg) (fun _ => false) cBadCfg rfl

/-- `hexLowerDigit` is injective on hex digits. -/
lemma hexLowerDigit_injOn (m n : Nat) (hm : m < 16) (hn : n < 16)
    (h : hexLowerDigit m = hexLowerDigit n) : m = n := by
  unfold hexLowerDigit at h
  split at h <;> split at h <;> omega

/-- Claim C8 (amended): the boundary token is the lowercase-hex
rendering of the 30 random bytes drawn for the message, and that
rendering is injective on byte sequences — so two built messages share
a boundary token only when `crypto/rand` returned identical bytes (and
the builder performs no further uniqueness or content check). -/
theorem c8_boundary_injective (r1 : List Nat) :
    ∀ (r2 : List Nat), (∀ b ∈ r1, b < 256) → (∀ b ∈ r2, b < 256) →
      randomBoundary r1 = randomBoundary r2 → r1 = r2 := by
  induction r1 with
  | nil =>
      intro r2 _ _ heq
      cases r2 with
      | nil => rfl
      | cons b t => simp [randomBoundary, hexBytes] at heq
  | cons a t1 ih =>
      intro r2 h1 h2 heq
      cases r2 with
      | nil => simp [randomBoundary, hexBytes] at heq
      | cons b t2 =>
          simp only [randomBoundary, hexBytes, List.cons.injEq] at heq
          obtain ⟨e1, e2, e3⟩ := heq
          have ha := h1 a (by simp)
          have hb := h2 b (by simp)
          have d1 := hexLowerDigit_injOn _ _ (by omega) (by omega) e1
          have d2 := hexLowerDigit_injOn _ _ (by omega) (by omega) e2
          have hab : a = b := by omega
          have ht : t1 = t2 := ih t2 (fun x hx => h1 x (by simp [hx]))
            (fun x hx => h2 x (by simp [hx])) e3
          rw [hab, ht]

/-- Claim C8 amended-theorem witness at a concrete byte draw. -/
theorem c8_boundary_injective_witness :
    (∀ b ∈ ([171, 0] : List Nat), b < 256) ∧ ([171, 0] : List Nat) = [171, 0] :=
  ⟨by decide, c8_boundary_injective [171, 0] [171, 0] (by decide) (by decide) rfl⟩

/-! ## Header block lemmas -/

lemma splitCRLF_append (l : List Nat) (rest : List Nat) (h : (13 : Nat) ∉ l) :
    splitCRLF (l ++ 13 :: 10 :: rest) = l :: splitCRLF rest := by
  induction l with
  | nil => rfl
  | cons c l' ih =>
      have hc : c ≠ 13 := fun hc => h (by simp [hc])
      have ih2 := ih (fun hx => h (by simp [hx]))
      obtain ⟨d, t, hdt⟩ : ∃ d t, l' ++ 13 :: 10 :: rest = d :: t := by
        cases l' <;> exact ⟨_, _, rfl⟩
      show splitCRLF (c :: (l' ++ 13 :: 10 :: rest)) = _
      rw [hdt]
      simp only [splitCRLF]
      rw [if_neg (by rintro ⟨h13, -⟩; exact hc h13)]
      rw [← hdt, ih2]

lemma splitCRLF_headerBlock (hs : List (List Nat × List Nat))
    (h : ∀ kv ∈ hs, (13 : Nat) ∉ kv.1 ++ strBytes ": " ++ kv.2) :
    splitCRLF (topHeaderBlock hs) =
      (hs.map fun kv => kv.1 ++ strBytes ": " ++ kv.2) ++ [[], []] := by
  induction hs with
  | nil => rfl
  | cons kv hs ih =>
      have h0 := h kv (by simp)
      have ih2 := ih (fun x hx => h x (by simp [hx]))
      have hassoc : topHeaderBlock (kv :: hs) =
          (kv.1 ++ strBytes ": " ++ kv.2) ++ 13 :: 10 :: topHeaderBlock hs := by
        simp [topHeaderBlock, listConcat, fmtHeaderLine, crlf, List.append_assoc]
      rw [hassoc, splitCRLF_append _ _ h0, ih2]
      simp

/-- A pair inequality from a first-component inequality. -/
lemma pair_ne_of_fst_ne {k1 k2 v1 v2 : List Nat} (h : k1 ≠ k2) :
    (k1, v1) ≠ (k2, v2) := fun he => h (congrArg Prod.fst he)

lemma topHeaderList_nodup (fromAddr toAddr subject : String) (b : List Nat) :
    (topHeaderList fromAddr toAddr subject b).Nodup := by
  have k12 : strBytes "From" ≠ strBytes "To" := by decide
  have k13 : strBytes "From" ≠ strBytes "Subject" := by decide
  have k14 : strBytes "From" ≠ strBytes "MIME-Version" := by decide
  have k15 : strBytes "From" ≠ strBytes "Content-Type" := by decide
  have k23 : strBytes "To" ≠ strBytes "Subject" := by decide
  have k24 : strBytes "To" ≠ strBytes "MIME-Version" := by decide
  have k25 : strBytes "To" ≠ strBytes "Content-Type" := by decide
  have k34 : strBytes "Subject" ≠ strBytes "MIME-Version" := by decide
  have k35 : strBytes "Subject" ≠ strBytes "Content-Type" := by decide
  have k45 : strBytes "MIME-Version" ≠ strBytes "Content-Type" := by decide
  simp only [topHeaderList, List.nodup_cons, List.mem_cons, List.mem_singleton,
    List.not_mem_nil, or_false, not_or, not_false_iff, List.nodup_nil, and_true]
  exact ⟨⟨pair_ne_of_fst_ne k12, pair_ne_of_fst_ne k13, pair_ne_of_fst_ne k14,
      pair_ne_of_fst_ne k15⟩,
    ⟨pair_ne_of_fst_ne k23, pair_ne_of_fst_ne k24, pair_ne_of_fst_ne k25⟩,
    ⟨pair_ne_of_fst_ne k34, pair_ne_of_fst_ne k35⟩,
    pair_ne_of_fst_ne k45⟩

/-- Claim C10: the top-level header block consists of the five header
lines — the splitCRLF image is the five `key: value` contents, one per
CRLF-terminated line, followed by exactly one blank line (the final
empty item being the artifact of the terminating CRLF) — each header
occurring exactly once (the emitted list is duplicate-free and has
exactly the five entries); and no relative order is guaranteed: two
map iteration orders exist whose emitted blocks differ. -/
theorem c10_header_block (fromAddr toAddr subject : String) (b : List Nat)
    (perm : List (List Nat × List Nat))
    (hperm : perm.Perm (topHeaderList fromAddr toAddr subject b))
    (hf : (13 : Nat) ∉ strBytes fromAddr) (ht : (13 : Nat) ∉ strBytes toAddr)
    (hs : (13 : Nat) ∉ strBytes subject) (hb : (13 : Nat) ∉ b) :
    splitCRLF (topHeaderBlock perm) =
      (perm.map fun kv => kv.1 ++ strBytes ": " ++ kv.2) ++ [[], []] ∧
    perm.Nodup ∧
    (∀ kv, kv ∈ perm ↔ kv ∈ topHeaderList fromAddr toAddr subject b) ∧
    (∃ p1 p2 : List (List Nat × List Nat),
      p1.Perm (topHeaderList fromAddr toAddr subject b) ∧
      p2.Perm (topHeaderList fromAddr toAddr subject b) ∧
      topHeaderBlock p1 ≠ topHeaderBlock p2) := by
  have hconst : ∀ s ∈ (["From", "To", "Subject", "MIME-Version", "Content-Type", ": ",
      "1.0", "multipart/mixed; boundary="] : List String), (13 : Nat) ∉ strBytes s := by
    decide
  have hlines : ∀ kv ∈ topHeaderList fromAddr toAddr subject b,
      (13 : Nat) ∉ kv.1 ++ strBytes ": " ++ kv.2 := by
    intro kv hkv
    simp only [topHeaderList, List.mem_cons, List.not_mem_nil, or_false] at hkv
    rcases hkv with rfl | rfl | rfl | rfl | rfl <;>
      simp only [List.mem_append, not_or]
    · exact ⟨⟨hconst "From" (by simp), hconst ": " (by simp)⟩, hf⟩
    · exact ⟨⟨hconst "To" (by simp), hconst ": " (by simp)⟩, ht⟩
    · exact ⟨⟨hconst "Subject" (by simp), hconst ": " (by simp)⟩, hs⟩
    · exact ⟨⟨hconst "MIME-Version" (by simp), hconst ": " (by simp)⟩,
        hconst "1.0" (by simp)⟩
    · exact ⟨⟨hconst "Content-Type" (by simp), hconst ": " (by simp)⟩,
        hconst "multipart/mixed; boundary=" (by simp), hb⟩
  refine ⟨splitCRLF_headerBlock perm
      (fun kv hkv => hlines kv (hperm.mem_iff.mp hkv)), ?_, ?_, ?_⟩
  · exact hperm.nodup_iff.mpr (topHeaderList_nodup fromAddr toAddr subject b)
  · intro kv; exact hperm.mem_iff
  · refine ⟨topHeaderList fromAddr toAddr subject b,
      (strBytes "To", strBytes toAddr) :: (strBytes "From", strBytes fromAddr) ::
        (strBytes "Subject", strBytes subject) ::
        (strBytes "MIME-Version", strBytes "1.0") ::
        [(strBytes "Content-Type", strBytes "multipart/mixed; boundary=" ++ b)],
      List.Perm.refl _, List.Perm.swap _ _ _, ?_⟩
    intro hcontra
    have h1 : (topHeaderBlock (topHeaderList fromAddr toAddr subject b)).head? =
        some 70 := rfl
    have h2 : (topHeaderBlock ((strBytes "To", strBytes toAddr) ::
        (strBytes "From", strBytes fromAddr) :: (strBytes "Subject", strBytes subject) ::
        (strBytes "MIME-Version", strBytes "1.0") ::
        [(strBytes "Content-Type", strBytes "multipart/mixed; boundary=" ++ b)])).head? =
        some 84 := rfl
    rw [hcontra, h2] at h1
    exact absurd h1 (by decide)

/-- Claim C10 witness at the concrete header fixture (identity map
order). -/
theorem c10_header_block_witness :
    splitCRLF (topHeaderBlock cHeaders) =
      (cHeaders.map fun kv => kv.1 ++ strBytes ": " ++ kv.2) ++ [[], []] ∧
    cHeaders.Nodup ∧
    (∀ kv, kv ∈ cHeaders ↔
      kv ∈ topHeaderList "alice@example.com" "bob@example.com" "Report" cBoundary) ∧
    (∃ p1 p2 : List (List Nat × List Nat),
      p1.Perm (topHeaderList "alice@example.com" "bob@example.com" "Report" cBoundary) ∧
      p2.Perm (topHeaderList "alice@example.com" "bob@example.com" "Report" cBoundary) ∧
      topHeaderBlock p1 ≠ topHeaderBlock p2) :=
  c10_header_block "alice@example.com" "bob@example.com" "Report" cBoundary cHeaders
    (List.Perm.refl _) (by decide) (by decide) (by decide) (by decide)
